import Mathlib

/-!
Shallow embedding of the oncekv cache tier (cache/node/node.go and
cache/master/master.go) and proofs about the claims of its specification.

HTTP traffic is modelled by explicit response values: `Option HTTPResponse`
is the outcome of one HTTP GET (`none` is a transport error), bytes are
`List Nat`.  Goroutine completion order in the fastest-database race is
modelled by the list `arrivals`: the completions, in arrival order, that
happen before the race's deadline.
-/

namespace Oncekv

/-- One HTTP response: status code and raw body bytes. -/
structure HTTPResponse where
  status : Nat
  body : List Nat
deriving DecidableEq, Repr

/-- The error values that flow through the node's miss path, one constructor
per distinct Go error in cache/node/node.go: `ErrDataNotFound`,
`ErrDatabaseQueryTimeout`, the "databases are not available" error of
`tryAllDBFind`, a transport error from `httpGetter.Get`, the
"database error, lost data" error for an empty 200 body, and the
"failed to fetch data" error for any other status. -/
inductive NodeErr where
  | dataNotFound
  | dbQueryTimeout
  | noDatabases
  | transport
  | lostData
  | fetchFailed
deriving DecidableEq, BEq, Repr

/-- Model of `Node.find` (node.go lines 263-289): `none` (transport error)
yields an error; status 404 yields `ErrDataNotFound`; status 200 with an
empty body yields the "lost data" error, otherwise the body bytes; any
other status yields the "failed to fetch data" error. -/
def find (resp : Option HTTPResponse) : Except NodeErr (List Nat) :=
  match resp with
  | none => .error .transport
  | some r =>
    if r.status = 404 then .error .dataNotFound
    else if r.status = 200 then
      if r.body.length = 0 then .error .lostData
      else .ok r.body
    else .error .fetchFailed

/-- The `val` component of a Go `(val, err)` pair returned by `find`:
`nil` (empty) on error. -/
def valOf : Except NodeErr (List Nat) → List Nat
  | .ok b => b
  | .error _ => []

/-- The `err` component of a Go `(val, err)` pair returned by `find`. -/
def errOf : Except NodeErr (List Nat) → Option NodeErr
  | .ok _ => none
  | .error e => some e

/-- The winner-election predicate evaluated by each race goroutine
(node.go line 311): `len(val) > 0 || err == ErrDataNotFound ||
completeCount == len(dbs)`.  `n` is `len(dbs)`, `c` is `completeCount`,
which the source never increments. -/
def wins (n c : Nat) (resp : Option HTTPResponse) : Bool :=
  decide (0 < (valOf (find resp)).length)
    || (errOf (find resp) == some NodeErr.dataNotFound)
    || (c == n)

/-- First arrival satisfying the election predicate, with `completeCount`
threaded through unchanged exactly as in the source (it is never
incremented). -/
def electWinnerAux (n c : Nat) :
    List (String × Option HTTPResponse) → Option (String × Option HTTPResponse)
  | [] => none
  | p :: rest => if wins n c p.2 then some p else electWinnerAux n c rest

/-- The arrival latched in as the race winner: the first completion before
the deadline that satisfies the election predicate, starting from
`completeCount = 0`. -/
def electWinner (n : Nat) (arrivals : List (String × Option HTTPResponse)) :
    Option (String × Option HTTPResponse) :=
  electWinnerAux n 0 arrivals

/-- The effect of one race (or fast-path lookup) on the node's `fastDB`. -/
inductive FastDBUpdate where
  | keep
  | clear
  | set (url : String)
deriving DecidableEq, Repr

/-- The promotion condition checked in the `data` branch of the race
(node.go line 332): `len(value) > 0 || resErr == ErrDataNotFound`. -/
def isGood (resp : Option HTTPResponse) : Bool :=
  decide (0 < (valOf (find resp)).length)
    || (errOf (find resp) == some NodeErr.dataNotFound)

/-- Model of `Node.tryAllDBFind` (node.go lines 291-338): empty `dbs` fails
with the "databases not available" error; otherwise, if some completion
before the deadline wins the election, its URL is promoted to `fastDB`
when the winning result is non-empty bytes or `ErrDataNotFound`, and its
result is returned; if no completion wins before the deadline, `fastDB`
is cleared and `ErrDatabaseQueryTimeout` is returned. -/
def raceStep (dbs : List String) (arrivals : List (String × Option HTTPResponse)) :
    FastDBUpdate × Except NodeErr (List Nat) :=
  if dbs.length = 0 then (.keep, .error .noDatabases)
  else
    match electWinner dbs.length arrivals with
    | none => (.clear, .error .dbQueryTimeout)
    | some (url, resp) =>
      if isGood resp then (.set url, find resp) else (.keep, find resp)

/-- Apply a `FastDBUpdate` to the current `fastDB` value. -/
def applyUpdate (st : String) : FastDBUpdate → String
  | .keep => st
  | .clear => ""
  | .set url => url

/-- The environment one `fetchData` call runs in: the response of the
single GET against `fastDB` (consulted only when `fastDB` is non-empty),
the snapshot of `dbs`, and the race completions arriving before the
deadline. -/
structure FetchEnv where
  fastResp : Option HTTPResponse
  dbs : List String
  arrivals : List (String × Option HTTPResponse)

/-- Model of `Node.fetchData` (node.go lines 243-261): with empty `fastDB`,
race all databases; otherwise issue one lookup to `fastDB` —
`ErrDataNotFound` and success return with `fastDB` intact, any other
error clears `fastDB` and falls through to the race.  Returns the new
`fastDB` and the loader result. -/
def fetchData (st : String) (env : FetchEnv) : String × Except NodeErr (List Nat) :=
  if st = "" then
    ((applyUpdate "" (raceStep env.dbs env.arrivals).1), (raceStep env.dbs env.arrivals).2)
  else
    match find env.fastResp with
    | .error .dataNotFound => (st, .error .dataNotFound)
    | .error _ =>
      ((applyUpdate "" (raceStep env.dbs env.arrivals).1), (raceStep env.dbs env.arrivals).2)
    | .ok data => (st, .ok data)

/-- The `fastDB` value after a sequence of `fetchData` calls, starting from
the zero value `""` a fresh node holds. -/
def runTrace (envs : List FetchEnv) : String :=
  envs.foldl (fun st env => (fetchData st env).1) ""

/-- An HTTP reply produced by a gin handler: status, body bytes,
Content-Type. -/
structure HTTPReply where
  status : Nat
  body : List Nat
  contentType : String
deriving DecidableEq, Repr

/-- The content type gin writes for JSON replies and the handler sets
explicitly on the 200 path. -/
def jsonContentType : String := "application/json; charset=utf-8"

/-- The bytes of the JSON `null` body written by `ctx.JSON(status, nil)`. -/
def jsonNullBody : List Nat := [110, 117, 108, 108]

/-- Model of `Node.handleGetKey` (node.go lines 155-174) applied to the
result of `group.Get`: `ErrDataNotFound` yields 404, any other error
yields 500, success yields 200 with the raw bytes and the JSON content
type. -/
def handleGetKey : Except NodeErr (List Nat) → HTTPReply
  | .error .dataNotFound => ⟨404, jsonNullBody, jsonContentType⟩
  | .error _ => ⟨500, jsonNullBody, jsonContentType⟩
  | .ok bytes => ⟨200, bytes, jsonContentType⟩

/-- Insert a string into a sorted list of strings, preserving order. -/
def insertSorted (s : String) : List String → List String
  | [] => [s]
  | t :: rest => if s ≤ t then s :: t :: rest else t :: insertSorted s rest

/-- Sorting of a string slice, as `sort.StringSlice(...).Sort()` does. -/
def sortStrings (l : List String) : List String :=
  l.foldr insertSorted []

/-- The node state touched by `handleMeta`: the peer list, the database
list, and the peer pool's ring (`pool.Set`). -/
structure NodeState where
  peers : List String
  dbs : List String
  ring : List String
deriving DecidableEq, Repr

/-- Model of `Node.handleMeta` (node.go lines 209-241): malformed JSON is
rejected with 400; otherwise both lists are sorted and, if both equal the
node's current view, 200 is returned without mutation; otherwise the ring
is reset and `peers` and `dbs` are replaced together, then 200. -/
def handleMeta (st : NodeState) (body : Option (List String × List String)) :
    NodeState × Nat :=
  match body with
  | none => (st, 400)
  | some (ps, ds) =>
    if sortStrings ps = st.peers ∧ sortStrings ds = st.dbs then (st, 200)
    else ({ peers := sortStrings ps, dbs := sortStrings ds, ring := sortStrings ps }, 200)

/-- Lookup in the roster association list (a Go `map[string]string` with
unique keys). -/
def mapLookup : List (String × String) → String → Option String
  | [], _ => none
  | p :: rest, k => if p.1 = k then some p.2 else mapLookup rest k

/-- Go map assignment `m[k] = v`: replace the binding when the key is
present, append it otherwise. -/
def mapInsert : List (String × String) → String → String → List (String × String)
  | [], k, v => [(k, v)]
  | p :: rest, k, v => if p.1 = k then (k, v) :: rest else p :: mapInsert rest k v

/-- Go `delete(m, k)`: drop the binding of `k` when present. -/
def mapRemove : List (String × String) → String → List (String × String)
  | [], _ => []
  | p :: rest, k => if p.1 = k then rest else p :: mapRemove rest k

/-- `nodesMap.httpAddrs()` (master.go lines 39-49): the sorted keys. -/
def httpAddrs (m : List (String × String)) : List String :=
  sortStrings (m.map (fun p => p.1))

/-- `nodesMap.nodeAddrs()` (master.go lines 51-61): the sorted values. -/
def nodeAddrs (m : List (String × String)) : List String :=
  sortStrings (m.map (fun p => p.2))

/-- The RPC reply of `Master.JoinNode`. -/
structure PeerParam where
  peers : List String
  dbs : List String
deriving DecidableEq, Repr

/-- Master state: the in-memory roster, the current database list, and the
roster as persisted in the metadata store under `nodesMapKey`
(`meta.Put` of its JSON marshalling; roster→JSON→roster round-trips, so
the persisted value is kept as a roster). -/
structure MasterState where
  nodesMap : List (String × String)
  dbs : List String
  persisted : List (String × String)
deriving DecidableEq, Repr

/-- Model of `Master.JoinNode` (master.go lines 141-157), parametrised by
`mk` for `urlutil.MakeURL` (URL normalisation, not under src/) and by
`putFails`, whether the `meta.Put` inside `updateNodesMap` fails.  Empty
params are rejected; the pair is inserted into the in-memory roster; a
persistence failure returns an error with the insertion already applied
(no rollback); on success the persisted roster is the new roster and the
reply carries the sorted httpAddrs and the current dbs. -/
def joinNode (mk : String → String) (putFails : Bool) (st : MasterState)
    (httpAddr nodeAddr : String) : MasterState × Except String PeerParam :=
  if httpAddr = "" ∨ nodeAddr = "" then (st, .error "wrong params")
  else
    if putFails then
      ({ st with nodesMap := mapInsert st.nodesMap (mk httpAddr) (mk nodeAddr) },
        .error "fail updateNodesMap")
    else
      ({ st with
          nodesMap := mapInsert st.nodesMap (mk httpAddr) (mk nodeAddr),
          persisted := mapInsert st.nodesMap (mk httpAddr) (mk nodeAddr) },
        .ok ⟨httpAddrs (mapInsert st.nodesMap (mk httpAddr) (mk nodeAddr)), st.dbs⟩)

/-- Model of `Master.removeNode` (master.go lines 232-247): an absent
address returns immediately; a present one is deleted and the roster is
persisted (a persistence failure is only logged; the Bool result records
whether a metadata-store write was attempted). -/
def removeNode (putFails : Bool) (st : MasterState) (node : String) :
    MasterState × Bool :=
  match mapLookup st.nodesMap node with
  | none => (st, false)
  | some _ =>
    if putFails then ({ st with nodesMap := mapRemove st.nodesMap node }, true)
    else
      ({ st with
          nodesMap := mapRemove st.nodesMap node,
          persisted := mapRemove st.nodesMap node }, true)

/-- Model of `Master.sendPeers` (master.go lines 205-230): first `syncDBs`
refreshes `dbs` from the database master — a refresh failure returns that
error before any POST is sent; then the heartbeat POST (`post` is `none`
for a transport error, `some status` otherwise) must return 200, or an
error is returned. -/
def sendPeers (sync : Except String (List String)) (post : Option Nat) :
    Except String Unit :=
  match sync with
  | .error e => .error e
  | .ok _ =>
    match post with
    | none => .error "transport error"
    | some status => if status = 200 then .ok () else .error "failed to send peers"

/-- The per-node decision of the heartbeat loop (master.go lines 193-201):
the node is removed exactly when `sendPeers` returns an error. -/
def heartbeatRemoves (sync : Except String (List String)) (post : Option Nat) : Bool :=
  match sendPeers sync post with
  | .ok _ => false
  | .error _ => true

/-! ### Helper lemmas -/

theorem wins_eq_isGood (n : Nat) (hn : n ≠ 0) (resp : Option HTTPResponse) :
    wins n 0 resp = isGood resp := by
  cases n with
  | zero => exact absurd rfl hn
  | succ m => simp [wins, isGood]

theorem electWinnerAux_eq_find (n : Nat) (hn : n ≠ 0)
    (l : List (String × Option HTTPResponse)) :
    electWinnerAux n 0 l = l.find? (fun p => isGood p.2) := by
  induction l with
  | nil => rfl
  | cons p rest ih =>
    rw [electWinnerAux, wins_eq_isGood n hn, List.find?_cons]
    cases hg : isGood p.2 with
    | true => simp
    | false => simp [ih]

theorem raceStep_timeout (dbs : List String)
    (arrivals : List (String × Option HTTPResponse)) (hd : dbs ≠ [])
    (hbad : ∀ p ∈ arrivals, isGood p.2 = false) :
    raceStep dbs arrivals = (FastDBUpdate.clear, Except.error NodeErr.dbQueryTimeout) := by
  have hn : dbs.length ≠ 0 := by
    intro h
    exact hd (List.length_eq_zero.mp h)
  have hfind : arrivals.find? (fun p => isGood p.2) = none := by
    rw [List.find?_eq_none]
    intro p hp
    simp [hbad p hp]
  rw [raceStep, if_neg hn, electWinner, electWinnerAux_eq_find dbs.length hn, hfind]

theorem raceStep_update_cases (dbs : List String)
    (arrivals : List (String × Option HTTPResponse)) :
    (raceStep dbs arrivals).1 = FastDBUpdate.keep ∨
    (raceStep dbs arrivals).1 = FastDBUpdate.clear ∨
    ∃ url resp, (raceStep dbs arrivals).1 = FastDBUpdate.set url ∧
      electWinner dbs.length arrivals = some (url, resp) ∧ isGood resp = true := by
  rw [raceStep]
  by_cases hd : dbs.length = 0
  · left
    simp [hd]
  · rw [if_neg hd]
    cases he : electWinner dbs.length arrivals with
    | none => right; left; rfl
    | some p =>
      obtain ⟨url, resp⟩ := p
      cases hg : isGood resp with
      | false => left; simp [hg]
      | true => right; right; exact ⟨url, resp, by simp [hg], rfl, hg⟩

theorem applyUpdate_race_cases (dbs : List String)
    (arrivals : List (String × Option HTTPResponse)) :
    applyUpdate "" (raceStep dbs arrivals).1 = "" ∨
    ∃ resp, electWinner dbs.length arrivals =
        some (applyUpdate "" (raceStep dbs arrivals).1, resp) ∧ isGood resp = true := by
  rcases raceStep_update_cases dbs arrivals with h | h | ⟨url, resp, h, he, hg⟩
  · left; rw [h]; rfl
  · left; rw [h]; rfl
  · right
    refine ⟨resp, ?_, hg⟩
    rw [h]
    exact he

theorem fetchData_fastDB_cases (st : String) (env : FetchEnv) :
    (fetchData st env).1 = st ∨ (fetchData st env).1 = "" ∨
    ∃ resp, electWinner env.dbs.length env.arrivals =
      some ((fetchData st env).1, resp) ∧ isGood resp = true := by
  by_cases hs : st = ""
  · rw [fetchData, if_pos hs]
    rcases applyUpdate_race_cases env.dbs env.arrivals with h | ⟨resp, he, hg⟩
    · right; left; exact h
    · right; right; exact ⟨resp, he, hg⟩
  · rw [fetchData, if_neg hs]
    cases hf : find env.fastResp with
    | ok data => left; rfl
    | error e =>
      cases e <;>
        first
          | (left; rfl)
          | exact match applyUpdate_race_cases env.dbs env.arrivals with
              | Or.inl h => Or.inr (Or.inl h)
              | Or.inr ⟨resp, he, hg⟩ => Or.inr (Or.inr ⟨resp, he, hg⟩)

theorem runTrace_foldl_cases (envs : List FetchEnv) : ∀ st : String,
    envs.foldl (fun s env => (fetchData s env).1) st = st ∨
    envs.foldl (fun s env => (fetchData s env).1) st = "" ∨
    ∃ env ∈ envs, ∃ resp,
      electWinner env.dbs.length env.arrivals =
        some (envs.foldl (fun s env => (fetchData s env).1) st, resp) ∧
      isGood resp = true := by
  induction envs with
  | nil => intro st; left; rfl
  | cons e es ih =>
    intro st
    rw [List.foldl_cons]
    rcases ih ((fetchData st e).1) with h | h | ⟨env, hmem, resp, he, hg⟩
    · rcases fetchData_fastDB_cases st e with h2 | h2 | ⟨resp, he2, hg2⟩
      · left; rw [h, h2]
      · right; left; rw [h, h2]
      · right; right
        refine ⟨e, List.mem_cons_self e es, resp, ?_, hg2⟩
        rw [h]
        exact he2
    · right; left; exact h
    · right; right; exact ⟨env, List.mem_cons_of_mem e hmem, resp, he, hg⟩

theorem mapLookup_mapInsert (m : List (String × String)) (k v : String) :
    mapLookup (mapInsert m k v) k = some v := by
  induction m with
  | nil => simp [mapInsert, mapLookup]
  | cons p rest ih =>
    by_cases hk : p.1 = k
    · simp [mapInsert, mapLookup, hk]
    · simp [mapInsert, mapLookup, hk, ih]

/-! ### Claims -/

/-- C1 (counterexample): the claim says a node is removed only when its own
POST returns a transport error or a non-200 status, never when the dbs
refresh fails.  In the source, a `syncDBs` failure makes `sendPeers`
return an error before any POST is sent, and the heartbeat loop then
removes the node: with a failed refresh and a POST that would return 200,
the node is removed all the same. -/
theorem heartbeat_eviction_counterexample :
    ¬ (∀ (sync : Except String (List String)) (post : Option Nat),
        heartbeatRemoves sync post = true →
        post = none ∨ ∃ s, post = some s ∧ s ≠ 200) := by
  intro hall
  rcases hall (Except.error "db refresh failed") (some 200) rfl with h | ⟨s, hs, hne⟩
  · exact Option.noConfusion h
  · injection hs with hs
    exact hne hs.symm

/-- C1 (amended): in the heartbeat loop a node is removed exactly when
`sendPeers` fails, and `sendPeers` fails exactly when the dbs refresh
from the database master fails, or the POST to the node is a transport
error, or it returns a non-200 status.  A dbs-refresh failure therefore
skips the POST for that node but still evicts it. -/
theorem heartbeat_eviction_condition :
    ∀ (sync : Except String (List String)) (post : Option Nat),
      heartbeatRemoves sync post =
        match sync with
        | .error _ => true
        | .ok _ =>
          match post with
          | none => true
          | some s => s != 200 := by
  intro sync post
  cases sync with
  | error e => rfl
  | ok dbs =>
    cases post with
    | none => rfl
    | some s =>
      by_cases hs : s = 200
      · simp [heartbeatRemoves, sendPeers, hs]
      · simp [heartbeatRemoves, sendPeers, hs]

/-- C2 (counterexample): the claim says that when every database returns an
error the last completion is elected as the winner instead of waiting for
the timeout.  On two databases that both fail with transport errors, no
completion wins the election (`completeCount` is never incremented, so
the `completeCount == len(dbs)` disjunct never fires) and the race falls
into the timeout branch, clearing `fastDB` and returning
`ErrDatabaseQueryTimeout`. -/
theorem race_all_errors_counterexample :
    electWinner 2 [("dbA", none), ("dbB", none)] = none ∧
    raceStep ["dbA", "dbB"] [("dbA", none), ("dbB", none)] =
      (FastDBUpdate.clear, Except.error NodeErr.dbQueryTimeout) :=
  ⟨rfl, rfl⟩

/-- C2 (amended): with a non-empty database list, the winner latched in is
the first completion whose outcome is a 200 with non-empty body or a
DataNotFound result; the last-outstanding-completion disjunct of the
source never fires because `completeCount` is never incremented, so when
every database returns an error no winner is elected and the race ends
with the timeout, clearing `fastDB` and returning
`ErrDatabaseQueryTimeout`. -/
theorem race_winner_first_good (dbs : List String)
    (arrivals : List (String × Option HTTPResponse)) (hd : dbs ≠ []) :
    electWinner dbs.length arrivals = arrivals.find? (fun p => isGood p.2) ∧
    ((∀ p ∈ arrivals, isGood p.2 = false) →
      raceStep dbs arrivals = (FastDBUpdate.clear, Except.error NodeErr.dbQueryTimeout)) := by
  have hn : dbs.length ≠ 0 := by
    intro h
    exact hd (List.length_eq_zero.mp h)
  exact ⟨electWinnerAux_eq_find dbs.length hn arrivals,
    fun hbad => raceStep_timeout dbs arrivals hd hbad⟩

/-- C2 witness: the amended claim applied at one database whose single
completion is a transport error. -/
theorem race_winner_first_good_witness :
    electWinner (["dbA"].length) [("dbA", (none : Option HTTPResponse))] =
      List.find? (fun p => isGood p.2) [("dbA", (none : Option HTTPResponse))] ∧
    ((∀ p ∈ [("dbA", (none : Option HTTPResponse))], isGood p.2 = false) →
      raceStep ["dbA"] [("dbA", (none : Option HTTPResponse))] =
        (FastDBUpdate.clear, Except.error NodeErr.dbQueryTimeout)) :=
  race_winner_first_good ["dbA"] [("dbA", none)] (by decide)

/-- A concrete fetch environment: one database that answers 200 with one
byte. -/
def demoEnvGood : FetchEnv :=
  ⟨none, ["dbA"], [("dbA", some ⟨200, [1]⟩)]⟩

/-- C3: the race promotes the winning URL to `fastDB` only when the winning
result is a 200 with non-empty body or a DataNotFound result; and after
any sequence of `fetchData` calls starting from the empty `fastDB` of a
fresh node, a non-empty `fastDB` is the URL of an arrival that won some
race of that sequence with one of those two outcomes. -/
theorem fastDB_names_good_winner :
    (∀ (dbs : List String) (arrivals : List (String × Option HTTPResponse))
        (url : String), (raceStep dbs arrivals).1 = FastDBUpdate.set url →
      ∃ resp, electWinner dbs.length arrivals = some (url, resp) ∧ isGood resp = true) ∧
    (∀ envs : List FetchEnv, runTrace envs ≠ "" →
      ∃ env ∈ envs, ∃ resp,
        electWinner env.dbs.length env.arrivals = some (runTrace envs, resp) ∧
        isGood resp = true) := by
  constructor
  · intro dbs arrivals url h
    rcases raceStep_update_cases dbs arrivals with h2 | h2 | ⟨u, resp, h2, he, hg⟩
    · rw [h] at h2
      exact FastDBUpdate.noConfusion h2
    · rw [h] at h2
      exact FastDBUpdate.noConfusion h2
    · rw [h] at h2
      injection h2 with hu
      subst hu
      exact ⟨resp, he, hg⟩
  · intro envs hne
    rcases runTrace_foldl_cases envs "" with h | h | hex
    · exact absurd h hne
    · exact absurd h hne
    · exact hex

/-- C3 witness: a one-call trace whose race is won by a 200 with one byte;
the resulting `fastDB` is that winner. -/
theorem fastDB_names_good_winner_witness :
    ∃ env ∈ [demoEnvGood], ∃ resp,
      electWinner env.dbs.length env.arrivals = some (runTrace [demoEnvGood], resp) ∧
      isGood resp = true :=
  fastDB_names_good_winner.2 [demoEnvGood] (by decide)

/-- C4: when the deadline elapses with no winner elected (no completion
before the deadline is a non-empty 200 or a DataNotFound), the loader
clears `fastDB` and returns `ErrDatabaseQueryTimeout`, and the
client-facing handler maps that error to a 500 status. -/
theorem race_timeout_clears_fastDB (env : FetchEnv) (hd : env.dbs ≠ [])
    (hbad : ∀ p ∈ env.arrivals, isGood p.2 = false) :
    fetchData "" env = ("", Except.error NodeErr.dbQueryTimeout) ∧
    (handleGetKey (Except.error NodeErr.dbQueryTimeout)).status = 500 := by
  refine ⟨?_, rfl⟩
  rw [fetchData, if_pos rfl, raceStep_timeout env.dbs env.arrivals hd hbad]
  rfl

/-- A concrete fetch environment: one database and no completion before the
deadline. -/
def demoEnvHang : FetchEnv := ⟨none, ["dbA"], []⟩

/-- C4 witness: the claim applied to a race in which the single database
never answers before the deadline. -/
theorem race_timeout_clears_fastDB_witness :
    fetchData "" demoEnvHang = ("", Except.error NodeErr.dbQueryTimeout) ∧
    (handleGetKey (Except.error NodeErr.dbQueryTimeout)).status = 500 :=
  race_timeout_clears_fastDB demoEnvHang (by decide) (by intro p hp; cases hp)

/-- C5: with `fastDB` set, the loader issues one lookup to it; a 404
response returns DataNotFound with `fastDB` unchanged, while a transport
error or a non-200/404 status clears `fastDB` and falls through to the
race over all databases (the final `fastDB` is the race update applied to
the cleared value, and the result is the race result). -/
theorem fastPath_404_keeps_error_clears (st : String) (env : FetchEnv) (hst : st ≠ "") :
    (∀ r : HTTPResponse, env.fastResp = some r → r.status = 404 →
      fetchData st env = (st, Except.error NodeErr.dataNotFound)) ∧
    ((env.fastResp = none ∨
        ∃ r, env.fastResp = some r ∧ r.status ≠ 404 ∧ r.status ≠ 200) →
      fetchData st env =
        (applyUpdate "" (raceStep env.dbs env.arrivals).1,
          (raceStep env.dbs env.arrivals).2)) := by
  constructor
  · intro r hr h404
    rw [fetchData, if_neg hst, hr]
    simp [find, h404]
  · intro hcase
    rw [fetchData, if_neg hst]
    rcases hcase with hr | ⟨r, hr, h404, h200⟩
    · rw [hr]
      rfl
    · rw [hr]
      simp [find, h404, h200]

/-- A concrete fetch environment: the fast database answers 404. -/
def demoEnv404 : FetchEnv := ⟨some ⟨404, []⟩, ["dbA"], []⟩

/-- C5 witness: the claim applied at a non-empty `fastDB` whose lookup
returns 404. -/
theorem fastPath_404_keeps_error_clears_witness :
    fetchData "dbX" demoEnv404 = ("dbX", Except.error NodeErr.dataNotFound) :=
  (fastPath_404_keeps_error_clears "dbX" demoEnv404 (by decide)).1 ⟨404, []⟩ rfl rfl

/-- C6: with valid parameters and a metadata store that accepts the write,
`JoinNode` persists the roster holding the (httpAddr, nodeAddr) pair (as
normalised by `urlutil.MakeURL`, abstracted as `mk`) in the state in
which the reply is produced, and the persisted roster equals the
in-memory one; a failure to persist makes the RPC return an error. -/
theorem joinNode_durable (mk : String → String) (st : MasterState)
    (ha na : String) (hha : ha ≠ "") (hna : na ≠ "") :
    mapLookup (joinNode mk false st ha na).1.persisted (mk ha) = some (mk na) ∧
    (joinNode mk false st ha na).1.persisted = (joinNode mk false st ha na).1.nodesMap ∧
    (∃ reply, (joinNode mk false st ha na).2 = Except.ok reply) ∧
    (∃ msg, (joinNode mk true st ha na).2 = Except.error msg) := by
  have hcond : ¬(ha = "" ∨ na = "") := by
    intro h
    rcases h with h | h
    · exact hha h
    · exact hna h
  rw [joinNode, if_neg hcond, joinNode, if_neg hcond]
  exact ⟨mapLookup_mapInsert st.nodesMap (mk ha) (mk na), rfl,
    ⟨_, rfl⟩, ⟨_, rfl⟩⟩

/-- C6 witness: the claim applied to an empty master and identity URL
normalisation. -/
theorem joinNode_durable_witness :
    mapLookup (joinNode (fun s => s) false ⟨[], [], []⟩ "h1" "n1").1.persisted "h1" =
      some "n1" ∧
    (joinNode (fun s => s) false ⟨[], [], []⟩ "h1" "n1").1.persisted =
      (joinNode (fun s => s) false ⟨[], [], []⟩ "h1" "n1").1.nodesMap ∧
    (∃ reply, (joinNode (fun s => s) false ⟨[], [], []⟩ "h1" "n1").2 = Except.ok reply) ∧
    (∃ msg, (joinNode (fun s => s) true ⟨[], [], []⟩ "h1" "n1").2 = Except.error msg) :=
  joinNode_durable (fun s => s) ⟨[], [], []⟩ "h1" "n1" (by decide) (by decide)

/-- C7: `handleMeta` sorts the peers and dbs of the body; when both sorted
lists equal the current view it answers 200 without mutation; otherwise
it replaces peers, dbs and the ring together and answers 200; and a
second call with the same body leaves the resulting state unchanged. -/
theorem handleMeta_idempotent (st : NodeState) (ps ds : List String) :
    (sortStrings ps = st.peers ∧ sortStrings ds = st.dbs →
      handleMeta st (some (ps, ds)) = (st, 200)) ∧
    (¬(sortStrings ps = st.peers ∧ sortStrings ds = st.dbs) →
      handleMeta st (some (ps, ds)) =
        ({ peers := sortStrings ps, dbs := sortStrings ds, ring := sortStrings ps }, 200)) ∧
    handleMeta (handleMeta st (some (ps, ds))).1 (some (ps, ds)) =
      ((handleMeta st (some (ps, ds))).1, 200) := by
  by_cases h : sortStrings ps = st.peers ∧ sortStrings ds = st.dbs
  · refine ⟨fun _ => ?_, fun hc => absurd h hc, ?_⟩
    · simp [handleMeta, h]
    · simp [handleMeta, h]
  · refine ⟨fun hc => absurd hc h, fun _ => ?_, ?_⟩
    · simp [handleMeta, h]
    · simp [handleMeta, h]

/-- C7 witness: the no-mutation branch of the claim at a node whose view
already equals the sorted body. -/
theorem handleMeta_idempotent_witness :
    handleMeta ⟨["p1"], ["d1"], ["p1"]⟩ (some (["p1"], ["d1"])) =
      (⟨["p1"], ["d1"], ["p1"]⟩, 200) :=
  (handleMeta_idempotent ⟨["p1"], ["d1"], ["p1"]⟩ ["p1"] ["d1"]).1
    ⟨by decide, by decide⟩

/-- C8: `GET /key/{key}` answers 200 with the raw bytes and the
`application/json; charset=utf-8` content type on success, 404 on
DataNotFound, and 500 on every other error. -/
theorem handleGetKey_statuses :
    jsonContentType = "application/json; charset=utf-8" ∧
    (∀ bytes : List Nat,
      handleGetKey (Except.ok bytes) = ⟨200, bytes, jsonContentType⟩) ∧
    (handleGetKey (Except.error NodeErr.dataNotFound)).status = 404 ∧
    (∀ e : NodeErr, e ≠ NodeErr.dataNotFound →
      (handleGetKey (Except.error e)).status = 500) := by
  refine ⟨rfl, fun bytes => rfl, rfl, fun e he => ?_⟩
  cases e
  · exact absurd rfl he
  all_goals rfl

/-- C8 witness: the 500 branch of the claim at a transport error. -/
theorem handleGetKey_statuses_witness :
    (handleGetKey (Except.error NodeErr.transport)).status = 500 :=
  handleGetKey_statuses.2.2.2 NodeErr.transport (by decide)

/-- C9: when persisting the roster fails, `JoinNode` returns an error, yet
the inserted pair stays in the in-memory roster and the persisted roster
is untouched, so the two disagree whenever the persisted roster does not
already hold the pair. -/
theorem joinNode_failed_no_rollback (mk : String → String) (st : MasterState)
    (ha na : String) (hha : ha ≠ "") (hna : na ≠ "") :
    (∃ msg, (joinNode mk true st ha na).2 = Except.error msg) ∧
    mapLookup (joinNode mk true st ha na).1.nodesMap (mk ha) = some (mk na) ∧
    (joinNode mk true st ha na).1.persisted = st.persisted ∧
    (mapLookup st.persisted (mk ha) ≠ some (mk na) →
      mapLookup (joinNode mk true st ha na).1.nodesMap (mk ha) ≠
        mapLookup (joinNode mk true st ha na).1.persisted (mk ha)) := by
  have hcond : ¬(ha = "" ∨ na = "") := by
    intro h
    rcases h with h | h
    · exact hha h
    · exact hna h
  rw [joinNode, if_neg hcond]
  refine ⟨⟨_, rfl⟩, mapLookup_mapInsert st.nodesMap (mk ha) (mk na), rfl, ?_⟩
  intro hdiff heq
  have heq2 : mapLookup (mapInsert st.nodesMap (mk ha) (mk na)) (mk ha) =
      mapLookup st.persisted (mk ha) := heq
  rw [mapLookup_mapInsert st.nodesMap (mk ha) (mk na)] at heq2
  exact hdiff heq2.symm

/-- C9 witness: a failed join on an empty master leaves the persisted
roster empty while the in-memory roster holds the pair. -/
theorem joinNode_failed_no_rollback_witness :
    (∃ msg, (joinNode (fun s => s) true ⟨[], [], []⟩ "h1" "n1").2 = Except.error msg) ∧
    mapLookup (joinNode (fun s => s) true ⟨[], [], []⟩ "h1" "n1").1.nodesMap "h1" =
      some "n1" ∧
    (joinNode (fun s => s) true ⟨[], [], []⟩ "h1" "n1").1.persisted = ([] : List (String × String)) ∧
    (mapLookup ([] : List (String × String)) "h1" ≠ some "n1" →
      mapLookup (joinNode (fun s => s) true ⟨[], [], []⟩ "h1" "n1").1.nodesMap "h1" ≠
        mapLookup (joinNode (fun s => s) true ⟨[], [], []⟩ "h1" "n1").1.persisted "h1") :=
  joinNode_failed_no_rollback (fun s => s) ⟨[], [], []⟩ "h1" "n1" (by decide) (by decide)

/-- C10: removing an address that is not in the roster changes nothing: the
state (both the in-memory and the persisted roster) is returned as it
was, and no metadata-store write is attempted. -/
theorem removeNode_absent_noop (putFails : Bool) (st : MasterState) (node : String)
    (habs : mapLookup st.nodesMap node = none) :
    removeNode putFails st node = (st, false) := by
  rw [removeNode, habs]

/-- C10 witness: the claim applied to a roster not holding the removed
address. -/
theorem removeNode_absent_noop_witness :
    removeNode false ⟨[("a", "b")], [], [("a", "b")]⟩ "c" =
      (⟨[("a", "b")], [], [("a", "b")]⟩, false) :=
  removeNode_absent_noop false ⟨[("a", "b")], [], [("a", "b")]⟩ "c" (by decide)

end Oncekv
